import Mathlib

/-!
Verification of the RSSKING ingestion and digest pipeline (fetcher.py, digest.py).

The Python sources are shallowly embedded below.  Timestamps are modelled as
rationals (seconds since the epoch), `datetime.now(...)` is an explicit `now`
parameter, and Python dictionaries carrying the feed / entry fields become
structures holding exactly the fields the code reads.  Scores are rationals;
`round(x, 2)` becomes round-half-to-even at two decimals over `ℚ`.
-/

set_option autoImplicit false

/-! ### Data model

`Entry` is the normalized feedparser entry as read by `fetcher.py`:
`link`, `title`, `summary`, `content` (list of content-block values),
`tags` (list of term strings, `t.get("term", "")`), and the parsed publish
timestamp `_published_dt` (`parse_published`, `None` on failure). -/

structure Entry where
  link : String
  title : String
  summary : String
  content : List String
  tags : List String
  published : Option ℚ
deriving DecidableEq, Repr

/-- A feed row, with the fields `fetcher.py` reads: `id`, `tier`,
`category`, `name`, `max_items`.  Absent dictionary keys are `Option.none`. -/
structure Feed where
  id : ℕ
  tier : Option Int
  category : Option String
  name : String
  maxItems : Option ℕ
deriving DecidableEq, Repr

/-- A persisted item row, as assembled in `main` (fetcher.py lines 194-203). -/
structure Item where
  feed_id : ℕ
  title : String
  url : String
  summary : String
  published_at : Option ℚ
  score : ℚ
  category : String
  source_name : String
deriving DecidableEq, Repr

/-! ### Scoring constants (fetcher.py lines 27-48) -/

def MAX_AGE_DAYS : ℚ := 30

def TIME_DECAY_MAX : ℚ := 50

def MULTI_SOURCE_BUMP : ℚ := 40

def METADATA_BUMP : ℚ := 30

def TITLE_PATTERN_BUMP : ℚ := 20

def KEYWORD_BOOST : ℚ := 20

def KEYWORD_PENALTY : ℚ := -30

/-- `TIER_WEIGHTS = {1: 40, 2: 20}` as a partial lookup. -/
def TIER_WEIGHTS (t : Int) : Option ℚ :=
  if t = 1 then Option.some 40 else if t = 2 then Option.some 20 else Option.none

/-- The words of `BREAKING_PATTERNS` (matched as whole words, case-insensitively). -/
def breakingWords : List String := ["breaking", "urgent", "flash", "alert", "exclusive"]

def NOISE_KEYWORDS : List String :=
  ["sponsored", "advertisement", "buy now", "subscribe now", "limited offer", "click here"]

/-! ### String helpers

Python's `str.strip()`, `str.lower()` and slicing are re-implemented over
character lists (structural recursion, so that concrete runs reduce inside
the kernel). -/

/-- Python `s.strip()`: drop whitespace from both ends. -/
def pyStrip (s : String) : String :=
  String.mk (((s.toList.dropWhile Char.isWhitespace).reverse.dropWhile Char.isWhitespace).reverse)

/-- Python `s.lower()` (ASCII range). -/
def pyLower (s : String) : String := String.mk (s.toList.map Char.toLower)

/-- Python `s[:n]`. -/
def strTake (s : String) (n : ℕ) : String := String.mk (s.toList.take n)

/-- Regex word characters, over the ASCII range (`[A-Za-z0-9_]`). -/
def isWordChar (c : Char) : Bool := c.isAlphanum || c == '_'

/-- A word boundary sits at the start/end of the text or next to a non-word char. -/
def boundaryOk : Option Char → Bool
  | Option.none => true
  | Option.some c => !(isWordChar c)

/-- Does `hay` start with `needle`? -/
def listStartsWith : List Char → List Char → Bool
  | _, [] => true
  | [], _ :: _ => false
  | a :: as, b :: bs => a == b && listStartsWith as bs

/-- Scan `s` for an occurrence of the word `w` flanked by word boundaries;
`prev` is the character just before the current position. -/
def wholeWordSearch (w : List Char) : Option Char → List Char → Bool
  | _, [] => false
  | prev, c :: rest =>
      (boundaryOk prev && listStartsWith (c :: rest) w
        && boundaryOk ((c :: rest).drop w.length).head?)
      || wholeWordSearch w (Option.some c) rest

/-- `re.search(r"\b(w)\b", s, re.IGNORECASE)` for a single lowercase word `w`:
search the lowercased text for `w` as a whole word. -/
def containsWholeWord (s w : String) : Bool :=
  wholeWordSearch w.toList Option.none (pyLower s).toList

/-- Is `needle` a contiguous substring of `hay` (Python `kw in combined`)? -/
def substringOf (needle : List Char) : List Char → Bool
  | [] => needle.isEmpty
  | c :: rest => listStartsWith (c :: rest) needle || substringOf needle rest

/-- Python `max(a, b)` on rationals (an `if` so that concrete runs reduce
inside the kernel; equal to `max`, see `pyMax_eq_max`). -/
def pyMax (a b : ℚ) : ℚ := if a < b then b else a

/-! ### Rounding: Python `round(x, 2)` (round half to even at two decimals). -/

/-- Round a rational to the nearest integer, ties to the even integer. -/
def roundHalfEven (q : ℚ) : ℤ :=
  let f : ℤ := ⌊q⌋
  let r : ℚ := q - (f : ℚ)
  if r < 1/2 then f
  else if 1/2 < r then f + 1
  else if f % 2 = 0 then f else f + 1

/-- `round(x, 2)`. -/
def round2 (q : ℚ) : ℚ := (roundHalfEven (q * 100) : ℚ) / 100

/-! ### The scorer (`score_item`, fetcher.py lines 67-106), split into its
additive signals.  The correlation map `m` is the `url_feed_count` dictionary,
modelled as its count function (`m u = 0` exactly when `u` is not a key). -/

/-- `TIER_WEIGHTS.get(feed.get("tier", 2), 20)`. -/
def tierWeight (f : Feed) : ℚ := (TIER_WEIGHTS (f.tier.getD 2)).getD 20

/-- Time decay (fetcher.py lines 78-84): for a present timestamp,
`max(0, 1 - age_days/30) * 50`, where `age_days = age_hours / 24` and
`age_hours = (now - published) / 3600`; absent timestamp contributes 0. -/
def recencyScore (e : Entry) (now : ℚ) : ℚ :=
  match e.published with
  | Option.none => 0
  | Option.some p =>
      let ageHours := (now - p) / 3600
      let ageDays := ageHours / 24
      pyMax 0 (1 - ageDays / MAX_AGE_DAYS) * TIME_DECAY_MAX

/-- `url_feed_count.get(url, 1)` — a url absent from the dictionary (count 0
in the function model) defaults to 1. -/
def countLookup (m : String → ℕ) (u : String) : ℕ :=
  if m u = 0 then 1 else m u

/-- Multi-source correlation (fetcher.py lines 86-89): +40 when the lookup of
the entry's raw (unstripped) `link` is at least 3. -/
def corrBonus (e : Entry) (m : String → ℕ) : ℚ :=
  if 3 ≤ countLookup m e.link then MULTI_SOURCE_BUMP else 0

/-- RSS metadata tags (fetcher.py lines 91-94). -/
def metadataBump (e : Entry) : ℚ :=
  if e.tags.any (fun t =>
      (["featured", "breaking", "top-news", "editors-pick"] : List String).contains (pyLower t))
  then METADATA_BUMP else 0

/-- Title patterns (fetcher.py lines 96-99). -/
def titleBump (e : Entry) : ℚ :=
  if breakingWords.any (fun w => containsWholeWord e.title w) then TITLE_PATTERN_BUMP else 0

/-- Noise penalty (fetcher.py lines 101-104). -/
def noisePenalty (e : Entry) : ℚ :=
  if NOISE_KEYWORDS.any
      (fun kw => substringOf kw.toList (pyLower (e.title ++ " " ++ e.summary)).toList)
  then KEYWORD_PENALTY else 0

/-- `score_item(item, feed, url_feed_count)` with the run's `now` explicit. -/
def score_item (e : Entry) (f : Feed) (m : String → ℕ) (now : ℚ) : ℚ :=
  round2 (tierWeight f + recencyScore e now + corrBonus e m
    + metadataBump e + titleBump e + noisePenalty e)

/-! ### Summary extraction (`summarise`, fetcher.py lines 120-131). -/

/-- Consume `[^>]+>` after a `<`: at least one non-`>` character, then `>`;
returns the remainder after the closing `>`, or `Option.none` if the regex
`<[^>]+>` does not match at this `<`. -/
def tagRemainder : List Char → Option (List Char)
  | [] => Option.none
  | c :: rest =>
      if c == '>' then Option.none
      else tagRemainderGo rest
where
  tagRemainderGo : List Char → Option (List Char)
    | [] => Option.none
    | c :: rest => if c == '>' then Option.some rest else tagRemainderGo rest

/-- `re.sub(r"<[^>]+>", " ", text)`, with fuel (the input length suffices,
since every step consumes at least one character). -/
def stripTagsAux : ℕ → List Char → List Char
  | 0, _ => []
  | _ + 1, [] => []
  | fuel + 1, c :: rest =>
      if c == '<' then
        match tagRemainder rest with
        | Option.some rest2 => ' ' :: stripTagsAux fuel rest2
        | Option.none => c :: stripTagsAux fuel rest
      else c :: stripTagsAux fuel rest

def stripTags (s : List Char) : List Char := stripTagsAux s.length s

/-- `re.sub(r"\s+", " ", text)`: collapse whitespace runs to single spaces.
`prevWs` records whether the previous character was part of a whitespace run. -/
def collapseWs : List Char → Bool → List Char
  | [], _ => []
  | c :: rest, prevWs =>
      if c.isWhitespace then
        if prevWs then collapseWs rest true else ' ' :: collapseWs rest true
      else c :: collapseWs rest false

/-- `summarise(entry, max_chars=500)`: prefer `summary`, else first content
block; strip tags, collapse whitespace, trim, truncate. -/
def summarise (e : Entry) (maxChars : ℕ := 500) : String :=
  let text := if e.summary ≠ "" then e.summary else e.content.head?.getD ""
  let t1 := stripTags text.toList
  let t2 := pyStrip (String.mk (collapseWs t1 false))
  strTake t2 maxChars

/-! ### First pass of `main` (fetcher.py lines 148-177): candidate collection
and the `url_feed_count` dictionary. -/

/-- The age cutoff: `datetime.now(utc) - timedelta(days=MAX_AGE_DAYS)`. -/
def ageCutoff (now : ℚ) : ℚ := now - MAX_AGE_DAYS * 86400

/-- The two `continue` filters of the first-pass entry loop (lines 165-174):
drop entries whose stripped link is empty, and entries whose parsed publish
date exists and is older than the cutoff. -/
def keepEntry (now : ℚ) (e : Entry) : Bool :=
  pyStrip e.link ≠ "" &&
    (match e.published with
     | Option.some p => !(decide (p < ageCutoff now))
     | Option.none => true)

/-- The candidate list of one run: per feed, the first `max_items` (default 10)
entries that survive `keepEntry`, paired with their owning feed, in
feed-then-entry order (fetcher.py lines 155-177). -/
def candidatesOf (now : ℚ) (feeds : List (Feed × List Entry)) : List (Entry × Feed) :=
  (feeds.map (fun fe =>
    ((fe.2.take (fe.1.maxItems.getD 10)).filter (keepEntry now)).map (fun e => (e, fe.1)))).flatten

/-- The final `url_feed_count` dictionary (line 176): each candidate entry
increments the count of its stripped link once. -/
def buildCount : List (Entry × Feed) → String → ℕ
  | [] => fun _ => 0
  | c :: rest => fun u => (if pyStrip c.1.link = u then 1 else 0) + buildCount rest u

/-! ### Second pass of `main` (fetcher.py lines 179-203): scoring and dedup. -/

/-- The item row appended to `new_items` (lines 194-203). -/
def mkItem (now : ℚ) (m : String → ℕ) (e : Entry) (f : Feed) : Item :=
  { feed_id := f.id
    title := strTake (pyStrip e.title) 500
    url := pyStrip e.link
    summary := summarise e
    published_at := e.published
    score := score_item e f m now
    category := f.category.getD "Uncategorized"
    source_name := f.name }

/-- The second-pass loop: skip candidates whose stripped url is persisted
(`existing_urls`) or already seen this run, otherwise record the url as seen
and append the new item. -/
def secondPass (now : ℚ) (ex : List String) (m : String → ℕ) :
    List (Entry × Feed) → List String → List Item
  | [], _ => []
  | c :: rest, seen =>
      if pyStrip c.1.link ∈ ex ∨ pyStrip c.1.link ∈ seen then
        secondPass now ex m rest seen
      else
        mkItem now m c.1 c.2 :: secondPass now ex m rest (pyStrip c.1.link :: seen)

/-- One full ingestion run: first pass builds candidates and `url_feed_count`,
the second pass produces the `new_items` batch. -/
def runPipeline (now : ℚ) (feeds : List (Feed × List Entry)) (ex : List String) : List Item :=
  secondPass now ex (buildCount (candidatesOf now feeds)) (candidatesOf now feeds) []

/-! ### Persistence phase of `main` (fetcher.py lines 205-233).

The store is external; what matters for the spec is the control flow around
failures.  `insOk i` tells whether the insert of chunk `i` succeeds, and
`d1Ok` / `d2Ok` whether the two retention-sweep deletes succeed.  When the
batch is empty, `main` returns at lines 207-209 ("No new items. Done.")
before any insert or delete.  Otherwise the insert loop wraps each chunk in
its own try/except (lines 216-221), so every chunk is attempted; the two
deletes share a single try block (lines 228-233), so the second delete runs
only when the first did not raise. -/

/-- `new_items[i : i + chunk_size]` slices, via fuel (the list length
suffices since each step consumes at least one element). -/
def chunksOfAux (k : ℕ) : ℕ → List Item → List (List Item)
  | _, [] => []
  | 0, l => [l]
  | fuel + 1, x :: xs => (x :: xs.take (k - 1)) :: chunksOfAux k fuel (xs.drop (k - 1))

def chunksOf (k : ℕ) (l : List Item) : List (List Item) := chunksOfAux k l.length l

/-- One record per attempted chunk: its size and whether its insert succeeded
(a `false` is the logged `Insert error`). -/
def insertLoop (insOk : ℕ → Bool) : List (List Item) → ℕ → List (ℕ × Bool)
  | [], _ => []
  | c :: rest, i => (c.length, insOk i) :: insertLoop insOk rest (i + 1)

/-- Observable outcome of the persistence phase. -/
structure PersistTrace where
  chunkOutcomes : List (ℕ × Bool)
  inserted : ℕ
  del1Attempted : Bool
  del2Attempted : Bool
  sweepErrorLogged : Bool
deriving DecidableEq, Repr

/-- The tail of `main` from line 205 on: the early return for an empty batch
(lines 207-209, nothing attempted), else the batch insert (lines 211-223)
followed by the retention sweep (lines 227-233).  For a non-empty batch the
first delete is attempted; the second is attempted only if the first
succeeded, because both sit in one try block; a sweep warning is logged iff
an attempted delete raised. -/
def runPersist (newItems : List Item) (insOk : ℕ → Bool) (d1Ok d2Ok : Bool) : PersistTrace :=
  if newItems = [] then
    { chunkOutcomes := []
      inserted := 0
      del1Attempted := false
      del2Attempted := false
      sweepErrorLogged := false }
  else
    let outcomes := insertLoop insOk (chunksOf 100 newItems) 0
    { chunkOutcomes := outcomes
      inserted := (outcomes.filter (fun o => o.2)).foldl (fun a o => a + o.1) 0
      del1Attempted := true
      del2Attempted := d1Ok
      sweepErrorLogged := !(d1Ok && d2Ok) }

/-! ### Digest pick validation (`write_digest`, digest.py lines 166-192).

The parsed JSON response from the summarizer is untrusted; `PyVal` models the
Python values it can hold.  Python's `bool` is a subclass of `int`, so
`isinstance(x, int)` is true for booleans and `True == 1`, `False == 0`;
`isInt` / `intVal` encode exactly that. -/

inductive PyVal where
  | int : Int → PyVal
  | bool : Bool → PyVal
  | str : String → PyVal
  | none : PyVal
  | list : List PyVal → PyVal
  | dict : List (String × PyVal) → PyVal

/-- `d.get(k, default)` on a Python dictionary (keys are unique). -/
def dictGetD (kvs : List (String × PyVal)) (k : String) (d : PyVal) : PyVal :=
  match kvs.find? (fun kv => kv.1 == k) with
  | Option.some kv => kv.2
  | Option.none => d

/-- `isinstance(x, int)` — true for `int` and for `bool` (a subclass of `int`). -/
def isInt : PyVal → Bool
  | PyVal.int _ => true
  | PyVal.bool _ => true
  | _ => false

/-- The integer value used by comparisons and indexing (`True == 1`). -/
def intVal : PyVal → Int
  | PyVal.int n => n
  | PyVal.bool b => if b then 1 else 0
  | _ => 0

def isList : PyVal → Bool
  | PyVal.list _ => true
  | _ => false

/-- Python single-quoted repr of a string (escape sequences not modelled;
no claim evaluates `str()` on container values). -/
def quoted (s : String) : String :=
  String.mk (Char.ofNat 39 :: s.toList) ++ String.mk [Char.ofNat 39]

mutual

/-- Python `repr` on the modelled values. -/
def pyRepr : PyVal → String
  | PyVal.int n => toString n
  | PyVal.bool b => if b then "True" else "False"
  | PyVal.str s => quoted s
  | PyVal.none => "None"
  | PyVal.list xs => "[" ++ pyReprList xs ++ "]"
  | PyVal.dict kvs => "\x7b" ++ pyReprDict kvs ++ "\x7d"

/-- Comma-separated reprs of list elements. -/
def pyReprList : List PyVal → String
  | [] => ""
  | [x] => pyRepr x
  | x :: y :: rest => pyRepr x ++ ", " ++ pyReprList (y :: rest)

/-- Comma-separated `'key': repr(value)` pairs of a dictionary. -/
def pyReprDict : List (String × PyVal) → String
  | [] => ""
  | [(k, v)] => quoted k ++ ": " ++ pyRepr v
  | (k, v) :: kv2 :: rest => quoted k ++ ": " ++ pyRepr v ++ ", " ++ pyReprDict (kv2 :: rest)

end

/-- Python `str()` on the modelled values. -/
def pyStr : PyVal → String
  | PyVal.str s => s
  | v => pyRepr v

/-- A candidate item as shown to the summarizer (`id` is the stored identity). -/
structure DigestItem where
  id : ℕ
  title : String
deriving DecidableEq, Repr

/-- A validated pick: `{"item_id": ..., "reason": ...}`. -/
structure Pick where
  item_id : ℕ
  reason : String
deriving DecidableEq, Repr

def TIME_WINDOW_HOURS : ℕ := 24

/-- The body of the pick loop (digest.py lines 173-184): non-mappings are
skipped; the index must satisfy `isinstance(one_based, int)` and
`1 <= one_based <= len(items)`; an accepted index resolves to
`items[one_based - 1]` and the reason is `str(pick.get("reason", ""))[:500]`. -/
def validatePick (items : List DigestItem) (pick : PyVal) : Option Pick :=
  match pick with
  | PyVal.dict kvs =>
      if isInt (dictGetD kvs "index" PyVal.none)
          ∧ 1 ≤ intVal (dictGetD kvs "index" PyVal.none)
          ∧ intVal (dictGetD kvs "index" PyVal.none) ≤ (items.length : Int) then
        match items.get? (intVal (dictGetD kvs "index" PyVal.none) - 1).toNat with
        | Option.some it =>
            Option.some
              { item_id := it.id
                reason := strTake (pyStr (dictGetD kvs "reason" (PyVal.str ""))) 500 }
        | Option.none => Option.none
      else Option.none
  | _ => Option.none

/-- The whole pick loop over `raw_picks`. -/
def validatePicks (items : List DigestItem) (raw : List PyVal) : List Pick :=
  raw.filterMap (validatePick items)

/-- `raw_picks = result.get("picks"); if not isinstance(raw_picks, list):
raw_picks = []` (digest.py lines 168-170). -/
def rawPicksOf (result : List (String × PyVal)) : List PyVal :=
  match dictGetD result "picks" PyVal.none with
  | PyVal.list xs => xs
  | _ => []

/-- The digest row inserted into the store (digest.py lines 186-192). -/
structure DigestRow where
  user_id : String
  overview : PyVal
  picks : List Pick
  time_window_hours : ℕ

/-- `write_digest(sb, user_id, items, result)`: validate the picks and build
the row that is unconditionally inserted. -/
def write_digest (user_id : String) (items : List DigestItem)
    (result : List (String × PyVal)) : DigestRow :=
  { user_id := user_id
    overview := dictGetD result "overview" (PyVal.str "")
    picks := validatePicks items (rawPicksOf result)
    time_window_hours := TIME_WINDOW_HOURS }

/-! ### A spec-side notion for claim C1: the number of *distinct* feeds
presenting a canonical url among the run's candidates.  The glossary defines
the correlation count as "number of distinct active feeds presenting the same
canonical url within one run"; the code instead counts candidate entries. -/

/-- Number of distinct feeds (by `id`) presenting stripped url `u` among the
candidates — the spec's wording, to be compared with `buildCount`. -/
def specDistinctFeedCount (cs : List (Entry × Feed)) (u : String) : ℕ :=
  ((cs.filter (fun c => pyStrip c.1.link == u)).map (fun c => c.2.id)).dedup.length

/-! ### Concrete inputs used by witnesses and counterexamples -/

/-- An entry with canonical link `u` and no publish date. -/
def eU : Entry :=
  { link := "u", title := "", summary := "", content := [], tags := [], published := Option.none }

def fT1 : Feed :=
  { id := 1, tier := Option.some 1, category := Option.none, name := "A", maxItems := Option.none }

def fT2 : Feed :=
  { id := 2, tier := Option.some 2, category := Option.none, name := "B", maxItems := Option.none }

def fT0 : Feed :=
  { id := 3, tier := Option.none, category := Option.none, name := "C", maxItems := Option.none }

def fT7 : Feed :=
  { id := 4, tier := Option.some 7, category := Option.none, name := "D", maxItems := Option.none }

/-- Three distinct feeds all presenting the url `u`. -/
def w1feeds : List (Feed × List Entry) := [(fT1, [eU]), (fT2, [eU]), (fT0, [eU])]

/-- One single feed presenting the url `u` in three of its own entries. -/
def cexC1feeds : List (Feed × List Entry) := [(fT2, [eU, eU, eU])]

def e4x : Entry :=
  { link := "x", title := "", summary := "", content := [], tags := [], published := Option.none }

def e4y : Entry :=
  { link := "y", title := "", summary := "", content := [], tags := [], published := Option.none }

/-- Feed `B` carries the already-persisted url `x`; feed `C` carries the new url `y`. -/
def w4feeds : List (Feed × List Entry) := [(fT2, [e4x]), (fT0, [e4y])]

/-- Two distinct feeds both presenting the url `u` — a within-run duplicate. -/
def w5feeds : List (Feed × List Entry) := [(fT2, [eU]), (fT0, [eU])]

def m5 : String → ℕ := buildCount (candidatesOf 0 w5feeds)

/-- A concrete item for the persistence-phase runs. -/
def cexItem : Item := mkItem 0 (fun _ => 0) eU fT1

/-- A two-element candidate list for the digest claims. -/
def w6items : List DigestItem := [⟨1, "t1"⟩, ⟨2, "t2"⟩]

/-! ### Helper lemmas -/

theorem pyMax_eq_max (a b : ℚ) : pyMax a b = max a b := by
  unfold pyMax
  rcases lt_or_le a b with h | h
  · rw [if_pos h, max_eq_right h.le]
  · rw [if_neg (not_lt.2 h), max_eq_left h]

theorem buildCount_eq_countP (cs : List (Entry × Feed)) (u : String) :
    buildCount cs u = cs.countP (fun c => decide (pyStrip c.1.link = u)) := by
  induction cs with
  | nil => simp [buildCount]
  | cons c rest ih =>
      simp only [buildCount, List.countP_cons, ih, decide_eq_true_eq]
      rcases eq_or_ne (pyStrip c.1.link) u with h | h
      · simp [h, Nat.add_comm]
      · simp [h]

theorem mkItem_url (now : ℚ) (m : String → ℕ) (e : Entry) (f : Feed) :
    (mkItem now m e f).url = pyStrip e.link := rfl

theorem secondPass_mem_not_ex (now : ℚ) (ex : List String) (m : String → ℕ) :
    ∀ (cs : List (Entry × Feed)) (seen : List String) (it : Item),
      it ∈ secondPass now ex m cs seen → it.url ∉ ex := by
  intro cs
  induction cs with
  | nil => intro seen it h; simp [secondPass] at h
  | cons c rest ih =>
      intro seen it h
      by_cases hc : pyStrip c.1.link ∈ ex ∨ pyStrip c.1.link ∈ seen
      · rw [secondPass, if_pos hc] at h
        exact ih seen it h
      · rw [secondPass, if_neg hc] at h
        rcases List.mem_cons.1 h with h1 | h1
        · subst h1
          exact fun hmem => hc (Or.inl hmem)
        · exact ih _ it h1

theorem secondPass_mem_not_seen (now : ℚ) (ex : List String) (m : String → ℕ) :
    ∀ (cs : List (Entry × Feed)) (seen : List String) (it : Item),
      it ∈ secondPass now ex m cs seen → it.url ∉ seen := by
  intro cs
  induction cs with
  | nil => intro seen it h; simp [secondPass] at h
  | cons c rest ih =>
      intro seen it h
      by_cases hc : pyStrip c.1.link ∈ ex ∨ pyStrip c.1.link ∈ seen
      · rw [secondPass, if_pos hc] at h
        exact ih seen it h
      · rw [secondPass, if_neg hc] at h
        rcases List.mem_cons.1 h with h1 | h1
        · subst h1
          exact fun hmem => hc (Or.inr hmem)
        · exact fun hmem => ih _ it h1 (List.mem_cons_of_mem _ hmem)

theorem secondPass_urls_nodup (now : ℚ) (ex : List String) (m : String → ℕ) :
    ∀ (cs : List (Entry × Feed)) (seen : List String),
      ((secondPass now ex m cs seen).map Item.url).Nodup := by
  intro cs
  induction cs with
  | nil => intro seen; simp [secondPass]
  | cons c rest ih =>
      intro seen
      by_cases hc : pyStrip c.1.link ∈ ex ∨ pyStrip c.1.link ∈ seen
      · rw [secondPass, if_pos hc]
        exact ih seen
      · rw [secondPass, if_neg hc]
        rw [List.map_cons, List.nodup_cons]
        refine ⟨?_, ih _⟩
        intro hmem
        rcases List.mem_map.1 hmem with ⟨it, hit, hurl⟩
        exact secondPass_mem_not_seen now ex m rest _ it hit (hurl ▸ List.mem_cons_self _ _)

theorem secondPass_mem_first (now : ℚ) (ex : List String) (m : String → ℕ) :
    ∀ (cs : List (Entry × Feed)) (seen : List String) (it : Item),
      it ∈ secondPass now ex m cs seen →
        ∃ c, cs.find? (fun p => pyStrip p.1.link == it.url) = Option.some c
          ∧ it = mkItem now m c.1 c.2 := by
  intro cs
  induction cs with
  | nil => intro seen it h; simp [secondPass] at h
  | cons c rest ih =>
      intro seen it h
      by_cases hc : pyStrip c.1.link ∈ ex ∨ pyStrip c.1.link ∈ seen
      · rw [secondPass, if_pos hc] at h
        have hne : pyStrip c.1.link ≠ it.url := by
          rcases hc with hx | hs
          · exact fun heq => secondPass_mem_not_ex now ex m rest seen it h (heq ▸ hx)
          · exact fun heq => secondPass_mem_not_seen now ex m rest seen it h (heq ▸ hs)
        rw [List.find?_cons_of_neg _ (by simpa using hne)]
        exact ih seen it h
      · rw [secondPass, if_neg hc] at h
        rcases List.mem_cons.1 h with h1 | h1
        · refine ⟨c, ?_, h1⟩
          rw [List.find?_cons_of_pos]
          simp [h1, mkItem_url]
        · have hns := secondPass_mem_not_seen now ex m rest _ it h1
          have hne : pyStrip c.1.link ≠ it.url := by
            intro heq
            exact hns (heq ▸ List.mem_cons_self _ _)
          rw [List.find?_cons_of_neg _ (by simpa using hne)]
          exact ih _ it h1

theorem secondPass_append (now : ℚ) (ex : List String) (m : String → ℕ) :
    ∀ (cs cs' : List (Entry × Feed)) (seen : List String),
      ∃ tail, secondPass now ex m (cs ++ cs') seen = secondPass now ex m cs seen ++ tail := by
  intro cs
  induction cs with
  | nil =>
      intro cs' seen
      exact ⟨secondPass now ex m cs' seen, by simp [secondPass]⟩
  | cons c rest ih =>
      intro cs' seen
      by_cases hc : pyStrip c.1.link ∈ ex ∨ pyStrip c.1.link ∈ seen
      · obtain ⟨tail, ht⟩ := ih cs' seen
        refine ⟨tail, ?_⟩
        rw [List.cons_append, secondPass, if_pos hc, secondPass, if_pos hc]
        exact ht
      · obtain ⟨tail, ht⟩ := ih cs' (pyStrip c.1.link :: seen)
        refine ⟨tail, ?_⟩
        rw [List.cons_append, secondPass, if_neg hc, secondPass, if_neg hc]
        rw [List.cons_append, ht]

theorem insertLoop_length (insOk : ℕ → Bool) :
    ∀ (cs : List (List Item)) (i : ℕ), (insertLoop insOk cs i).length = cs.length := by
  intro cs
  induction cs with
  | nil => intro i; rfl
  | cons c rest ih => intro i; simp [insertLoop, ih]

/-! ### Claims -/

/-- C4: for every run and candidate entry, if the entry's stripped url is in
the persisted url set loaded at the start of the run, no item of the output
batch carries that url — the entry is never present in `new_items`,
regardless of its score. -/
theorem c4_persisted_url_never_emitted
    (now : ℚ) (feeds : List (Feed × List Entry)) (ex : List String)
    (e : Entry) (f : Feed)
    (_hmem : (e, f) ∈ candidatesOf now feeds)
    (hex : pyStrip e.link ∈ ex) :
    ∀ it ∈ runPipeline now feeds ex, it.url ≠ pyStrip e.link := by
  intro it hit heq
  rw [runPipeline] at hit
  exact secondPass_mem_not_ex now ex _ _ [] it hit (heq ▸ hex)

/-- Witness for C4: in the concrete run `w4feeds` with `x` already persisted,
the emitted item (the one for `y`) does not carry the persisted url `x`. -/
theorem c4_persisted_url_never_emitted_witness :
    (mkItem 0 (buildCount (candidatesOf 0 w4feeds)) e4y fT0).url ≠ pyStrip e4x.link :=
  c4_persisted_url_never_emitted 0 w4feeds ["x"] e4x fT2 (by decide) (by decide)
    (mkItem 0 (buildCount (candidatesOf 0 w4feeds)) e4y fT0) (List.Mem.head _)

/-- C5: within one run (fixed correlation map), first occurrence wins:
the output batch has pairwise distinct urls; every output item is the one
built from the *first* candidate, in feed-then-entry order, carrying its url
(so every later duplicate, even from a different feed, is dropped); and
processing further candidates only appends to the already accepted output —
an accepted entry is never retracted. -/
theorem c5_first_occurrence_wins (now : ℚ) (feeds : List (Feed × List Entry))
    (ex : List String) (cs' : List (Entry × Feed)) :
    ((runPipeline now feeds ex).map Item.url).Nodup
    ∧ (∀ it ∈ runPipeline now feeds ex,
        ∃ c, (candidatesOf now feeds).find? (fun p => pyStrip p.1.link == it.url)
            = Option.some c
          ∧ it = mkItem now (buildCount (candidatesOf now feeds)) c.1 c.2)
    ∧ (∃ tail,
        secondPass now ex (buildCount (candidatesOf now feeds))
            (candidatesOf now feeds ++ cs') []
          = secondPass now ex (buildCount (candidatesOf now feeds))
              (candidatesOf now feeds) [] ++ tail) := by
  refine ⟨?_, ?_, ?_⟩
  · rw [runPipeline]
    exact secondPass_urls_nodup now ex _ _ []
  · intro it hit
    rw [runPipeline] at hit
    exact secondPass_mem_first now ex _ _ [] it hit
  · exact secondPass_append now ex _ _ cs' []

/-- Witness for C5: in the run `w5feeds`, where feeds `B` and `C` both carry
the url `u`, the single emitted item resolves to the first-encountered
candidate — the one from feed `B`. -/
theorem c5_first_occurrence_wins_witness :
    ∃ c, (candidatesOf 0 w5feeds).find?
        (fun p => pyStrip p.1.link == (mkItem 0 m5 eU fT2).url) = Option.some c
      ∧ mkItem 0 m5 eU fT2 = mkItem 0 m5 c.1 c.2 :=
  (c5_first_occurrence_wins 0 w5feeds [] []).2.1 (mkItem 0 m5 eU fT2) (List.Mem.head _)

/-- C1 (amended): during scoring, the +40 multi-source bonus is added to a
candidate entry's score exactly when the number of age-filtered candidate
*entries* of the run sharing its canonical (stripped) url is at least 3 —
an occurrence count, not a count of distinct feeds — provided the entry's
raw link equals its stripped form (the scorer looks the raw link up in a
dictionary keyed by stripped links). -/
theorem c1_correlation_bonus_amended
    (now : ℚ) (feeds : List (Feed × List Entry)) (e : Entry) (f : Feed)
    (_hmem : (e, f) ∈ candidatesOf now feeds)
    (hlink : pyStrip e.link = e.link) :
    (3 ≤ (candidatesOf now feeds).countP (fun c => decide (pyStrip c.1.link = pyStrip e.link)) →
      score_item e f (buildCount (candidatesOf now feeds)) now
        = round2 (tierWeight f + recencyScore e now + MULTI_SOURCE_BUMP
            + metadataBump e + titleBump e + noisePenalty e))
    ∧ ((candidatesOf now feeds).countP (fun c => decide (pyStrip c.1.link = pyStrip e.link)) < 3 →
      score_item e f (buildCount (candidatesOf now feeds)) now
        = round2 (tierWeight f + recencyScore e now
            + metadataBump e + titleBump e + noisePenalty e)) := by
  have hk : buildCount (candidatesOf now feeds) e.link
      = (candidatesOf now feeds).countP (fun c => decide (pyStrip c.1.link = pyStrip e.link)) := by
    rw [buildCount_eq_countP, hlink]
  constructor
  · intro h3
    have h3' : 3 ≤ buildCount (candidatesOf now feeds) e.link := by rw [hk]; exact h3
    have hcl : 3 ≤ countLookup (buildCount (candidatesOf now feeds)) e.link := by
      unfold countLookup
      rw [if_neg (by omega : ¬ buildCount (candidatesOf now feeds) e.link = 0)]
      exact h3'
    have hb : corrBonus e (buildCount (candidatesOf now feeds)) = MULTI_SOURCE_BUMP := by
      unfold corrBonus
      exact if_pos hcl
    rw [score_item, hb]
  · intro hlt
    have hlt' : buildCount (candidatesOf now feeds) e.link < 3 := by rw [hk]; exact hlt
    have hcl : countLookup (buildCount (candidatesOf now feeds)) e.link < 3 := by
      unfold countLookup
      rcases Nat.eq_zero_or_pos (buildCount (candidatesOf now feeds) e.link) with h0 | hpos
      · rw [if_pos h0]; omega
      · rw [if_neg (by omega)]; omega
    have hb : corrBonus e (buildCount (candidatesOf now feeds)) = 0 := by
      unfold corrBonus
      exact if_neg (by omega)
    rw [score_item, hb]
    exact congrArg round2 (by ring)

/-- Witness for C1 (amended): in the run `w1feeds` three feeds present the
url `u`, so the entry scores tier 40 plus the +40 bonus. -/
theorem c1_correlation_bonus_amended_witness :
    score_item eU fT1 (buildCount (candidatesOf 0 w1feeds)) 0 = 80 := by
  have h := (c1_correlation_bonus_amended 0 w1feeds eU fT1 (by decide) (by decide)).1 (by decide)
  rw [h]
  have h1 : tierWeight fT1 = 40 := rfl
  have h2 : recencyScore eU 0 = 0 := rfl
  have h4 : metadataBump eU = 0 := rfl
  have h5 : titleBump eU = 0 := rfl
  have h6 : noisePenalty eU = 0 := rfl
  rw [h1, h2, h4, h5, h6, MULTI_SOURCE_BUMP]
  norm_num [round2, roundHalfEven]

/-- Counterexample for C1 as stated: in the run `cexC1feeds` a *single* feed
lists the url `u` in three of its own entries.  Only 1 distinct feed presents
`u`, yet the +40 bonus is applied (the tier-2 entry scores 60 = 20 + 40
instead of 20): the code counts candidate entries, not distinct feeds. -/
theorem c1_correlation_bonus_counterexample :
    specDistinctFeedCount (candidatesOf 0 cexC1feeds) (pyStrip eU.link) = 1
    ∧ corrBonus eU (buildCount (candidatesOf 0 cexC1feeds)) = MULTI_SOURCE_BUMP
    ∧ score_item eU fT2 (buildCount (candidatesOf 0 cexC1feeds)) 0 = 60 := by
  refine ⟨by decide, rfl, ?_⟩
  have h1 : tierWeight fT2 = 20 := rfl
  have h2 : recencyScore eU 0 = 0 := rfl
  have h3 : corrBonus eU (buildCount (candidatesOf 0 cexC1feeds)) = 40 := rfl
  have h4 : metadataBump eU = 0 := rfl
  have h5 : titleBump eU = 0 := rfl
  have h6 : noisePenalty eU = 0 := rfl
  rw [score_item, h1, h2, h3, h4, h5, h6]
  norm_num [round2, roundHalfEven]

/-- C3 (amended): the recency contribution equals
`max(0, 1 - age_days/30) * 50` for a present timestamp and 0 for an absent
one; it is monotonically non-increasing as age increases, is at least 0, is
at most 50 for entries whose age is non-negative (published no later than
`now`), and is exactly 0 at an age of exactly 30 days.  For a future-dated
entry (negative age) it exceeds 50 — the code has no upper clamp, see the
counterexample. -/
theorem c3_recency_amended (e : Entry) (now p q1 q2 : ℚ) :
    (e.published = Option.none → recencyScore e now = 0)
    ∧ (e.published = Option.some p →
        recencyScore e now = max 0 (1 - (((now - p) / 3600) / 24) / 30) * 50)
    ∧ (q1 ≤ q2 →
        recencyScore { e with published := Option.some q1 } now
          ≤ recencyScore { e with published := Option.some q2 } now)
    ∧ 0 ≤ recencyScore e now
    ∧ (p ≤ now → recencyScore { e with published := Option.some p } now ≤ 50)
    ∧ recencyScore { e with published := Option.some (now - 30 * 86400) } now = 0 := by
  refine ⟨?_, ?_, ?_, ?_, ?_, ?_⟩
  · intro h
    simp [recencyScore, h]
  · intro h
    simp [recencyScore, h, pyMax_eq_max, MAX_AGE_DAYS, TIME_DECAY_MAX]
  · intro hq
    simp only [recencyScore, pyMax_eq_max, MAX_AGE_DAYS, TIME_DECAY_MAX]
    have hle : 1 - ((now - q1) / 3600 / 24) / 30 ≤ 1 - ((now - q2) / 3600 / 24) / 30 := by
      have h21 : now - q2 ≤ now - q1 := by linarith
      linarith
    exact mul_le_mul_of_nonneg_right (max_le_max le_rfl hle) (by norm_num)
  · rcases he : e.published with _ | pp
    · simp [recencyScore, he]
    · simp only [recencyScore, he, pyMax_eq_max, TIME_DECAY_MAX]
      exact mul_nonneg (le_max_left 0 _) (by norm_num)
  · intro hp
    simp only [recencyScore, pyMax_eq_max, MAX_AGE_DAYS, TIME_DECAY_MAX]
    have hnn : (0 : ℚ) ≤ ((now - p) / 3600 / 24) / 30 :=
      div_nonneg (div_nonneg (div_nonneg (by linarith) (by norm_num)) (by norm_num)) (by norm_num)
    have h1 : 1 - ((now - p) / 3600 / 24) / 30 ≤ 1 := by linarith
    calc max 0 (1 - ((now - p) / 3600 / 24) / 30) * 50
        ≤ 1 * 50 := mul_le_mul_of_nonneg_right (max_le (by norm_num) h1) (by norm_num)
      _ = 50 := by norm_num
  · simp only [recencyScore, pyMax_eq_max, MAX_AGE_DAYS, TIME_DECAY_MAX]
    have h : now - (now - 30 * 86400) = 2592000 := by ring
    rw [h]
    norm_num

/-- Witness for C3 (amended): concrete instances — a 2-day-old entry scores
no more than a 1-day-old one, an entry exactly 30 days old contributes 0,
and a 1-day-old entry contributes at most 50. -/
theorem c3_recency_amended_witness :
    recencyScore { eU with published := Option.some (-172800) } 0
      ≤ recencyScore { eU with published := Option.some (-86400) } 0
    ∧ recencyScore { eU with published := Option.some ((0 : ℚ) - 30 * 86400) } 0 = 0
    ∧ recencyScore { eU with published := Option.some (-86400) } 0 ≤ 50 := by
  have h := c3_recency_amended eU 0 (-86400) (-172800) (-86400)
  exact ⟨h.2.2.1 (by norm_num), h.2.2.2.2.2, h.2.2.2.2.1 (by norm_num)⟩

/-- Counterexample for C3 as stated: an entry dated 30 days in the *future*
(age −30 days) gets a recency contribution of 100, violating the claimed
clamp to [0, 50]; the code only clamps from below. -/
theorem c3_recency_counterexample :
    recencyScore { eU with published := Option.some 2592000 } 0 = 100
    ∧ ¬ recencyScore { eU with published := Option.some 2592000 } 0 ≤ 50 := by
  have h : recencyScore { eU with published := Option.some 2592000 } 0 = 100 := by
    norm_num [recencyScore, pyMax, MAX_AGE_DAYS, TIME_DECAY_MAX]
  refine ⟨h, ?_⟩
  rw [h]
  norm_num

/-- C7: the tier-weight contribution is +40 for tier 1 and +20 for tier 2,
for a missing tier, and for any other tier value. -/
theorem c7_tier_weights (f : Feed) :
    (f.tier = Option.some 1 → tierWeight f = 40)
    ∧ (f.tier = Option.some 2 → tierWeight f = 20)
    ∧ (f.tier = Option.none → tierWeight f = 20)
    ∧ (∀ t : Int, f.tier = Option.some t → t ≠ 1 → tierWeight f = 20) := by
  refine ⟨?_, ?_, ?_, ?_⟩
  · intro h
    simp [tierWeight, TIER_WEIGHTS, h]
  · intro h
    simp [tierWeight, TIER_WEIGHTS, h]
  · intro h
    simp [tierWeight, TIER_WEIGHTS, h]
  · intro t ht hne
    rcases eq_or_ne t 2 with h2 | h2
    · simp [tierWeight, TIER_WEIGHTS, ht, h2]
    · simp [tierWeight, TIER_WEIGHTS, ht, hne, h2]

/-- Witness for C7: the four concrete feeds (tier 1, tier 2, missing tier,
tier 7) weigh 40, 20, 20, 20. -/
theorem c7_tier_weights_witness :
    tierWeight fT1 = 40 ∧ tierWeight fT2 = 20
      ∧ tierWeight fT0 = 20 ∧ tierWeight fT7 = 20 :=
  ⟨(c7_tier_weights fT1).1 rfl, (c7_tier_weights fT2).2.1 rfl,
    (c7_tier_weights fT0).2.2.1 rfl, (c7_tier_weights fT7).2.2.2 7 rfl (by decide)⟩

/-- C9: `score_item` is deterministic — two calls on equal entries, feeds,
correlation counts and the same fixed "now" return the identical rounded
score. -/
theorem c9_score_deterministic (e1 e2 : Entry) (f1 f2 : Feed)
    (m1 m2 : String → ℕ) (now1 now2 : ℚ)
    (he : e1 = e2) (hf : f1 = f2) (hm : ∀ u, m1 u = m2 u) (hn : now1 = now2) :
    score_item e1 f1 m1 now1 = score_item e2 f2 m2 now2 := by
  subst he
  subst hf
  subst hn
  simp only [score_item, corrBonus, countLookup, hm e1.link]

/-- Witness for C9: two syntactically different but pointwise-equal
correlation maps give the entry the same score. -/
theorem c9_score_deterministic_witness :
    score_item eU fT1 (fun _ => 3) 0 = score_item eU fT1 (fun u => u.length + 3 - u.length) 0 :=
  c9_score_deterministic eU eU fT1 fT1 (fun _ => 3) (fun u => u.length + 3 - u.length)
    0 0 rfl rfl (fun u => by show 3 = u.length + 3 - u.length; omega) rfl

/-- C2 (amended): on every run whose non-empty batch reaches the persistence
phase, every insert chunk is attempted regardless of other chunks' failures
(each chunk has its own try/except), an insert failure does not prevent the
sweep (the first delete is attempted), and a sweep warning is logged iff an
attempted delete fails; but the second retention-sweep delete is attempted
exactly when the first one succeeded, because both deletes share a single
try block.  (An empty batch returns before the persistence phase,
fetcher.py lines 207-209, and attempts nothing.) -/
theorem c2_persistence_amended (newItems : List Item) (insOk : ℕ → Bool) (d1Ok d2Ok : Bool)
    (hne : newItems ≠ []) :
    (runPersist newItems insOk d1Ok d2Ok).chunkOutcomes.length = (chunksOf 100 newItems).length
    ∧ (runPersist newItems insOk d1Ok d2Ok).del1Attempted = true
    ∧ (runPersist newItems insOk d1Ok d2Ok).del2Attempted = d1Ok
    ∧ (runPersist newItems insOk d1Ok d2Ok).sweepErrorLogged = !(d1Ok && d2Ok) := by
  unfold runPersist
  rw [if_neg hne]
  exact ⟨insertLoop_length insOk (chunksOf 100 newItems) 0, rfl, rfl, rfl⟩

/-- Witness for C2 (amended): a run with a one-item batch and a failing
first chunk still attempts the sweep — the first delete is attempted and,
since it succeeds, so is the second. -/
theorem c2_persistence_amended_witness :
    (runPersist [cexItem] (fun _ => false) true true).del1Attempted = true
    ∧ (runPersist [cexItem] (fun _ => false) true true).del2Attempted = true :=
  ⟨(c2_persistence_amended [cexItem] (fun _ => false) true true (List.cons_ne_nil _ _)).2.1,
    (c2_persistence_amended [cexItem] (fun _ => false) true true (List.cons_ne_nil _ _)).2.2.1⟩

/-- Counterexample for C2 as stated: a run with one successfully inserted
chunk where the first retention-sweep delete fails — the warning is logged,
but the second delete is *not* attempted, although the claim requires the
other delete still to be attempted. -/
theorem c2_persistence_counterexample :
    (runPersist [cexItem] (fun _ => true) false true).del1Attempted = true
    ∧ (runPersist [cexItem] (fun _ => true) false true).del2Attempted = false
    ∧ (runPersist [cexItem] (fun _ => true) false true).sweepErrorLogged = true :=
  ⟨rfl, rfl, rfl⟩

/-- C6: digest pick validation over a candidate list of length N (N ≥ 1)
drops a pick whose index is 0, N+1, the non-integer string "2", or missing,
and accepts every integer index i with 1 ≤ i ≤ N, resolving it to the stored
identity of candidate i−1 (0-based). -/
theorem c6_pick_validation (items : List DigestItem) (_hN : 1 ≤ items.length) :
    validatePick items (PyVal.dict [("index", PyVal.int 0)]) = Option.none
    ∧ validatePick items (PyVal.dict [("index", PyVal.int ((items.length : Int) + 1))])
        = Option.none
    ∧ validatePick items (PyVal.dict [("index", PyVal.str "2")]) = Option.none
    ∧ validatePick items (PyVal.dict [("reason", PyVal.str "r")]) = Option.none
    ∧ (∀ i : ℕ, 1 ≤ i → i ≤ items.length →
        ∃ it, items.get? (i - 1) = Option.some it
          ∧ validatePick items (PyVal.dict [("index", PyVal.int (i : Int))])
              = Option.some { item_id := it.id, reason := "" }) := by
  refine ⟨rfl, ?_, rfl, rfl, ?_⟩
  · simp only [validatePick]
    rw [show dictGetD [("index", PyVal.int ((items.length : Int) + 1))] "index" PyVal.none
        = PyVal.int ((items.length : Int) + 1) from rfl]
    rw [if_neg]
    intro hcond
    have := hcond.2.2
    simp only [intVal] at this
    omega
  · intro i h1 hi
    have hlt : i - 1 < items.length := by omega
    refine ⟨items.get ⟨i - 1, hlt⟩, List.get?_eq_get hlt, ?_⟩
    simp only [validatePick]
    rw [show dictGetD [("index", PyVal.int (i : Int))] "index" PyVal.none
        = PyVal.int (i : Int) from rfl]
    rw [if_pos ⟨rfl, by show (1 : Int) ≤ (i : Int); exact_mod_cast h1,
      by show (i : Int) ≤ (items.length : Int); exact_mod_cast hi⟩]
    have htn : ((i : Int) - 1).toNat = i - 1 := by omega
    rw [show intVal (PyVal.int (i : Int)) = (i : Int) from rfl, htn, List.get?_eq_get hlt]
    rfl

/-- Witness for C6: on the two-element candidate list, indices 0, 3 and "2"
and a missing index are dropped; index 2 resolves to the second item. -/
theorem c6_pick_validation_witness :
    validatePick w6items (PyVal.dict [("index", PyVal.int 0)]) = Option.none
    ∧ validatePick w6items (PyVal.dict [("index", PyVal.int 3)]) = Option.none
    ∧ validatePick w6items (PyVal.dict [("index", PyVal.str "2")]) = Option.none
    ∧ validatePick w6items (PyVal.dict [("reason", PyVal.str "r")]) = Option.none
    ∧ validatePick w6items (PyVal.dict [("index", PyVal.int 2)])
        = Option.some { item_id := 2, reason := "" } := by
  have h := c6_pick_validation w6items (by decide)
  refine ⟨h.1, ?_, h.2.2.1, h.2.2.2.1, ?_⟩
  · simpa using h.2.1
  · obtain ⟨it, hit, hv⟩ := h.2.2.2.2 2 (by decide) (by decide)
    have heq : Option.some it = Option.some (⟨2, "t2"⟩ : DigestItem) := hit.symm.trans rfl
    cases Option.some.inj heq
    exact hv

/-- C10: Python's `bool` is a subclass of `int`, so a pick whose index is the
boolean `True` passes validation (`True == 1`) and resolves to the first
candidate, while `False` (`== 0`) is dropped as out of range. -/
theorem c10_boolean_index (items : List DigestItem) (hN : 1 ≤ items.length) :
    (∃ it, items.get? 0 = Option.some it
      ∧ validatePick items (PyVal.dict [("index", PyVal.bool true)])
          = Option.some { item_id := it.id, reason := "" })
    ∧ validatePick items (PyVal.dict [("index", PyVal.bool false)]) = Option.none := by
  constructor
  · have hlt : 0 < items.length := hN
    refine ⟨items.get ⟨0, hlt⟩, List.get?_eq_get hlt, ?_⟩
    simp only [validatePick]
    rw [show dictGetD [("index", PyVal.bool true)] "index" PyVal.none
        = PyVal.bool true from rfl]
    rw [if_pos ⟨rfl, by decide, by show (1 : Int) ≤ (items.length : Int); exact_mod_cast hN⟩]
    have htn : ((intVal (PyVal.bool true)) - 1).toNat = 0 := by decide
    rw [htn, List.get?_eq_get hlt]
    rfl
  · rfl

/-- Witness for C10: on the two-element candidate list, index `True` yields
the first item's identity and index `False` is dropped. -/
theorem c10_boolean_index_witness :
    validatePick w6items (PyVal.dict [("index", PyVal.bool true)])
      = Option.some { item_id := 1, reason := "" }
    ∧ validatePick w6items (PyVal.dict [("index", PyVal.bool false)]) = Option.none := by
  obtain ⟨⟨it, hit, hv⟩, hf⟩ := c10_boolean_index w6items (by decide)
  have heq : Option.some it = Option.some (⟨1, "t1"⟩ : DigestItem) := hit.symm.trans rfl
  cases Option.some.inj heq
  exact ⟨hv, hf⟩

/-- C8: when the response's picks field is not a sequence the pick list is
treated as empty, and the digest row is still produced with whatever picks
survive validation — in particular, with zero surviving picks the row is the
overview together with an empty pick list. -/
theorem c8_digest_written_with_surviving_picks (uid : String) (items : List DigestItem)
    (result : List (String × PyVal)) :
    (isList (dictGetD result "picks" PyVal.none) = false →
      (write_digest uid items result).picks = [])
    ∧ (write_digest uid items result).picks = validatePicks items (rawPicksOf result)
    ∧ (validatePicks items (rawPicksOf result) = [] →
        write_digest uid items result
          = { user_id := uid
              overview := dictGetD result "overview" (PyVal.str "")
              picks := []
              time_window_hours := TIME_WINDOW_HOURS }) := by
  refine ⟨?_, rfl, ?_⟩
  · intro h
    show validatePicks items (rawPicksOf result) = []
    cases hv : dictGetD result "picks" PyVal.none <;>
      simp [rawPicksOf, hv, validatePicks, isList] at h ⊢
  · intro h
    unfold write_digest
    rw [h]

/-- Witness for C8: a response whose picks field is the string "nope" still
yields a stored digest row with the overview and no picks. -/
theorem c8_digest_written_with_surviving_picks_witness :
    (write_digest "u" w6items [("overview", PyVal.str "o"), ("picks", PyVal.str "nope")]).picks = []
    ∧ write_digest "u" w6items [("overview", PyVal.str "o"), ("picks", PyVal.str "nope")]
        = { user_id := "u", overview := PyVal.str "o", picks := [],
            time_window_hours := TIME_WINDOW_HOURS } := by
  have h := c8_digest_written_with_surviving_picks "u" w6items
    [("overview", PyVal.str "o"), ("picks", PyVal.str "nope")]
  exact ⟨h.1 rfl, h.2.2 rfl⟩
